import Mathlib

/-!
Verification of `athop_transaction_scraper.py` against its specification.

The Python program is shallowly embedded here:

* `Transaction` embeds the `Transaction` NamedTuple.
* `RawTransaction` embeds the upstream JSON dict for one transaction; each
  field is an `Option` because the dict may lack the key (`KeyError`).
* `process_transaction` embeds `ATHopScraper.process_transaction`.
* `hasKey` / `insert_if_absent` embed the `INSERT` with primary key
  `(card_id, cardtransactionid)` together with the
  `except sqlite3.IntegrityError: pass` pattern of `scrape_card`.
* `scrape_card_go` / `scrape_card` embed `ATHopScraper.scrape_card`,
  including the `database_connection` context manager's commit/rollback:
  a persistence failure other than a duplicate key (modelled by the
  environment oracle `fail`) rolls the batch back and re-raises.
* `test_session` embeds `ATHopScraper._test_session`.
* `fetch_transactions` embeds `ATHopScraper.fetch_transactions`.
* `scrape_cards` / `run_once` embed the card loop of `ATHopScraper.run_once`.
* `run_step` embeds one iteration of the `while True` loop of
  `ATHopScraper.run` (failure counting, backoff and the broad
  `except Exception` handler).
* `parse_cards` embeds `Config._parse_cards` (a Python dict is modelled as
  an association list whose update keeps the position of the first
  insertion, exactly like a dict).

Side effects are made explicit: the sqlite table is a `List Transaction`,
Slack notifications are accumulated in a list (the `SlackApiError` handler
inside `send_slack_notification` means a notification attempt never raises),
and nondeterministic behaviour of the outside world (HTTP responses, disk
failures) is supplied by oracle parameters.
-/

namespace ATHop

/-- The `Transaction` NamedTuple of the source. Float fields are modelled
as rationals; they are only carried, never computed with. -/
structure Transaction where
  card_id : String
  card_name : Option String
  cardtransactionid : String
  description : String
  location : String
  transactiondatetime : String
  hop_balance_display : String
  value : Option ℚ
  value_display : String
  journey_id : String
  refundrequested : Int
  refundable_value : ℚ
  transaction_type_description : String
  transaction_type : String
  deriving DecidableEq, Repr

/-- One raw upstream transaction dict (`Dict[str, Any]`): every field is
optional because `transaction["k"]` raises `KeyError` when `k` is absent
(and `transaction.get` returns `None`). -/
structure RawTransaction where
  cardtransactionid : Option String
  description : Option String
  location : Option String
  transactiondatetime : Option String
  hop_balance_display : Option String
  value : Option ℚ
  value_display : Option String
  journey_id : Option String
  refundrequested : Option Int
  refundable_value : Option ℚ
  transaction_type_description : Option String
  transaction_type : Option String
  deriving DecidableEq, Repr

/-- `ATHopScraper.process_transaction`: skip the pending sentinel
(`transaction.get("description") == "TRANSACTION(S) PENDING"`), build the
`Transaction`, and return `None` on any `KeyError` (a missing required
field). -/
def process_transaction (card_id : String) (card_name : Option String)
    (t : RawTransaction) : Option Transaction :=
  if t.description = some "TRANSACTION(S) PENDING" then none
  else
    t.cardtransactionid.bind fun ctid =>
    t.description.bind fun desc =>
    t.location.bind fun loc =>
    t.transactiondatetime.bind fun tdt =>
    t.hop_balance_display.bind fun hbd =>
    t.value_display.bind fun vd =>
    t.journey_id.bind fun jid =>
    t.refundrequested.bind fun rr =>
    t.refundable_value.bind fun rv =>
    t.transaction_type_description.bind fun ttd =>
    t.transaction_type.bind fun tt =>
    some { card_id := card_id, card_name := card_name, cardtransactionid := ctid,
           description := desc, location := loc, transactiondatetime := tdt,
           hop_balance_display := hbd, value := t.value, value_display := vd,
           journey_id := jid, refundrequested := rr, refundable_value := rv,
           transaction_type_description := ttd, transaction_type := tt }

/-- Whether the table holds a row with primary key `(cid, tid)` — the
condition under which the `INSERT` raises `sqlite3.IntegrityError`. -/
def hasKey (rows : List Transaction) (cid tid : String) : Bool :=
  rows.any fun r => r.card_id == cid && r.cardtransactionid == tid

/-- Number of stored rows with primary key `(cid, tid)`. -/
def countKey (rows : List Transaction) (cid tid : String) : Nat :=
  (rows.filter fun r => r.card_id == cid && r.cardtransactionid == tid).length

/-- The `INSERT INTO transactions ... VALUES (...)` of `scrape_card`
together with its `except sqlite3.IntegrityError: pass` handler: a new key
is appended and reported new (`true`); an existing primary key leaves the
table unchanged and is reported as a benign duplicate (`false`). -/
def insert_if_absent (rows : List Transaction) (t : Transaction) :
    List Transaction × Bool :=
  if hasKey rows t.card_id t.cardtransactionid then (rows, false)
  else (rows ++ [t], true)

/-- Result of processing one card's batch inside the open sqlite
transaction: the notifications already sent (they are side effects and
survive a rollback) and, unless a persistence failure was raised, the rows
visible in the transaction plus the running new-record count. -/
structure BatchResult where
  notified : List Transaction
  committed : Option (List Transaction × Nat)
  deriving DecidableEq, Repr

/-- The `for transaction in transactions` loop of `scrape_card`. `fail`
is the environment oracle deciding whether the `INSERT` of a given record
raises a `sqlite3.Error` other than `IntegrityError` (disk, corruption,
schema mismatch); such an error escapes the loop (`committed = none`).
A successful insert increments `new_count` and sends the Slack
notification before moving on. -/
def scrape_card_go (fail : Transaction → Bool) (card_id : String)
    (card_name : Option String) :
    List Transaction → List Transaction → Nat → List RawTransaction → BatchResult
  | rows, notified, count, [] => ⟨notified, some (rows, count)⟩
  | rows, notified, count, raw :: rest =>
    match process_transaction card_id card_name raw with
    | none => scrape_card_go fail card_id card_name rows notified count rest
    | some txn =>
      if fail txn then ⟨notified, none⟩
      else if hasKey rows txn.card_id txn.cardtransactionid then
        scrape_card_go fail card_id card_name rows notified count rest
      else
        scrape_card_go fail card_id card_name (rows ++ [txn])
          (notified ++ [txn]) (count + 1) rest

/-- Observable outcome of `scrape_card` for one card: the committed table
after the call, the notifications sent, and either the returned
`new_count` (`some n`) or `none` when a `sqlite3.Error` propagated out of
the `database_connection` context manager. -/
structure CardOutcome where
  store : List Transaction
  notified : List Transaction
  result : Option Nat
  deriving DecidableEq, Repr

/-- `ATHopScraper.scrape_card`: a failed fetch returns 0 immediately; a
fetched batch runs inside `database_connection`, which commits the
accumulated rows on normal completion and rolls the table back to its
prior state when a `sqlite3.Error` escapes (then re-raises). -/
def scrape_card (fail : Transaction → Bool) (card_id : String)
    (card_name : Option String) (store : List Transaction)
    (fetched : Option (List RawTransaction)) : CardOutcome :=
  match fetched with
  | none => ⟨store, [], some 0⟩
  | some batch =>
    match scrape_card_go fail card_id card_name store [] 0 batch with
    | ⟨notified, some (rows, count)⟩ => ⟨rows, notified, some count⟩
    | ⟨notified, none⟩ => ⟨store, notified, none⟩

/-- Outcome of the probe request issued by `_test_session`: either an HTTP
response with a status code, or an exception (network failure, timeout,
any `Exception`). -/
inductive ProbeOutcome where
  | status (code : Nat)
  | failure
  deriving DecidableEq, Repr

/-- `ATHopScraper._test_session`: `False` without a session; with one, the
probe GET on the first configured card's endpoint returns `True` exactly
on status 200, and the bare `except Exception` turns every raised
exception into `False`. -/
def test_session (sessionExists : Bool) (probe : ProbeOutcome) : Bool :=
  if sessionExists then
    match probe with
    | .status code => code == 200
    | .failure => false
  else false

/-- Outcome of the GET in `fetch_transactions`: a decoded JSON body (whose
`Transactions` key may be absent), or one of the three handled failures. -/
inductive FetchOutcome where
  | ok (body : Option (List RawTransaction))
  | httpError
  | decodeError
  | requestError
  deriving DecidableEq, Repr

/-- `ATHopScraper.fetch_transactions`: `None` without an active session;
otherwise `data.get("Transactions", [])` on success, and `None` for each
of the handled exception classes (`HTTPError`, `JSONDecodeError`,
`RequestException`). -/
def fetch_transactions (sessionExists : Bool) (outcome : FetchOutcome) :
    Option (List RawTransaction) :=
  if sessionExists then
    match outcome with
    | .ok body => some (body.getD [])
    | .httpError => none
    | .decodeError => none
    | .requestError => none
  else none

/-- The outside world during one scraping cycle: whether a session object
exists, the probe outcome `_test_session` would observe, whether `login()`
would succeed, the per-card result of `fetch_transactions`, and the
persistence-failure oracle for the `INSERT`s. -/
structure CycleEnv where
  sessionExists : Bool
  probe : ProbeOutcome
  loginOk : Bool
  fetched : String → Option (List RawTransaction)
  storeFail : Transaction → Bool

/-- Observable outcome of the `for card_id, card_name in self.config.cards`
loop of `run_once`: committed table, all notifications sent, the cards for
which `scrape_card` was invoked (in order), and the summed new-record
count — `none` when a `sqlite3.Error` escaped `scrape_card` and aborted
the loop. -/
structure CycleScrape where
  store : List Transaction
  notified : List Transaction
  processed : List String
  result : Option Nat
  deriving DecidableEq, Repr

/-- The card loop of `run_once`: cards are scraped sequentially in
configuration order; an exception escaping `scrape_card` propagates at
once, so the remaining cards are not visited. -/
def scrape_cards (env : CycleEnv) (store : List Transaction) :
    List (String × Option String) → CycleScrape
  | [] => ⟨store, [], [], some 0⟩
  | (cid, cname) :: rest =>
    match scrape_card env.storeFail cid cname store (env.fetched cid) with
    | ⟨store', notified, some n⟩ =>
      let r := scrape_cards env store' rest
      ⟨r.store, notified ++ r.notified, cid :: r.processed, r.result.map (n + ·)⟩
    | ⟨store', notified, none⟩ => ⟨store', notified, [cid], none⟩

/-- Observable outcome of `run_once`: `result = some b` when it returned
`b`, `none` when an exception propagated out of it; `loginCalls` counts
invocations of `login()`. -/
structure RunOnceOutcome where
  store : List Transaction
  notified : List Transaction
  processed : List String
  loginCalls : Nat
  result : Option Bool
  deriving DecidableEq, Repr

/-- `ATHopScraper.run_once`: when no session exists or the probe fails,
`login()` is attempted once — on failure the cycle returns `False` with no
card scraped; otherwise every configured card is scraped and the cycle
returns `True` (or re-raises a store error). -/
def run_once (env : CycleEnv) (cards : List (String × Option String))
    (store : List Transaction) : RunOnceOutcome :=
  if !env.sessionExists || !test_session env.sessionExists env.probe then
    if env.loginOk then
      let s := scrape_cards env store cards
      ⟨s.store, s.notified, s.processed, 1,
        if s.result.isSome then some true else none⟩
    else ⟨store, [], [], 1, some false⟩
  else
    let s := scrape_cards env store cards
    ⟨s.store, s.notified, s.processed, 0,
      if s.result.isSome then some true else none⟩

/-- How one iteration of the `while True` loop of `run` ends: `run_once`
returned `True` or `False`, raised an `Exception`, or `KeyboardInterrupt`
was raised. -/
inductive CycleOutcome where
  | success
  | failure
  | exn
  | shutdown
  deriving DecidableEq, Repr

/-- Classify an observed `run_once` outcome for the run loop: `True` is a
success, `False` a counted failure, and a propagated exception lands in
the loop's `except Exception` handler. -/
def outcomeOf (r : RunOnceOutcome) : CycleOutcome :=
  match r.result with
  | some true => .success
  | some false => .failure
  | none => .exn

/-- The backoff of `run` after `f` consecutive failures:
`min(60 * (2 ** (f - 1)), 1800)`. -/
def backoff (f : Nat) : Nat :=
  min (60 * 2 ^ (f - 1)) 1800

/-- Effect of one iteration of the `while True` loop of `run`: the updated
consecutive-failure counter, the sleep performed (`none` only on
shutdown), and whether the loop continues. -/
structure StepResult where
  failures : Nat
  sleep : Option Nat
  running : Bool
  deriving DecidableEq, Repr

/-- One iteration of `ATHopScraper.run` given the current
consecutive-failure counter and the cycle's outcome: success resets the
counter and sleeps the configured period; a `False` cycle increments it
and sleeps the capped exponential backoff; an exception is caught by
`except Exception`, increments the counter and sleeps a flat 60 s; only
`KeyboardInterrupt` breaks the loop. -/
def run_step (period : Nat) (failures : Nat) (o : CycleOutcome) : StepResult :=
  match o with
  | .success => ⟨0, some period, true⟩
  | .failure => ⟨failures + 1, some (backoff (failures + 1)), true⟩
  | .exn => ⟨failures + 1, some 60, true⟩
  | .shutdown => ⟨failures, none, false⟩

/-- Parse one entry of the `AT_CARDS` string, mirroring the loop body of
`Config._parse_cards`: strip the entry, and when it contains `":"` split
on the first colon and strip both halves (`split(":", 1)`). -/
def parseEntry (entry : String) : String × Option String :=
  let e := entry.trim
  if e.contains ':' then
    match e.splitOn ":" with
    | [] => (e, none)
    | cid :: rest => (cid.trim, some ((String.intercalate ":" rest).trim))
  else (e, none)

/-- `cards[card_id] = card_name` on a Python dict modelled as an
association list: an existing key keeps its original position and gets the
new value; a fresh key is appended. -/
def dictInsert (d : List (String × Option String)) (k : String)
    (v : Option String) : List (String × Option String) :=
  if d.any (fun p => p.1 == k) then
    d.map fun p => if p.1 == k then (k, v) else p
  else d ++ [(k, v)]

/-- `Config._parse_cards`: split the configuration string on `","` and
insert each parsed entry into the dict. -/
def parse_cards (cards_str : String) : List (String × Option String) :=
  (cards_str.splitOn ",").foldl
    (fun d entry => dictInsert d (parseEntry entry).1 (parseEntry entry).2) []

/-- `cards[k]` lookup on the dict model. -/
def lookup : List (String × Option String) → String → Option (Option String)
  | [], _ => none
  | p :: d, k => if p.1 == k then some p.2 else lookup d k

/-- Oracle of an environment in which no `INSERT` ever hits a persistence
failure (the sqlite layer only ever reports duplicates). -/
def noFail : Transaction → Bool := fun _ => false

/-! Concrete data used to exercise the definitions: the worked example of
the spec (transaction `T1` of card `C1`) and variants of it. -/

/-- A well-formed upstream record, taken from the spec's worked example. -/
def raw1 : RawTransaction :=
  { cardtransactionid := some "T1", description := some "Bus Trip",
    location := some "Stop A",
    transactiondatetime := some "2024-01-01T08:00:00",
    hop_balance_display := some "$10.00", value := some (-(5 / 2 : ℚ)),
    value_display := some "-$2.50", journey_id := some "J1",
    refundrequested := some 0, refundable_value := some 0,
    transaction_type_description := some "Bus fare",
    transaction_type := some "Fare" }

/-- A second well-formed upstream record with a distinct transaction id. -/
def raw2 : RawTransaction :=
  { raw1 with cardtransactionid := some "T2",
              description := some "Train Trip" }

/-- An upstream record carrying the pending sentinel. -/
def pendingRaw : RawTransaction :=
  { raw1 with description := some "TRANSACTION(S) PENDING" }

/-- The record `process_transaction "C1" none raw1` produces. -/
def txn1 : Transaction :=
  { card_id := "C1", card_name := none, cardtransactionid := "T1",
    description := "Bus Trip", location := "Stop A",
    transactiondatetime := "2024-01-01T08:00:00",
    hop_balance_display := "$10.00", value := some (-(5 / 2 : ℚ)),
    value_display := "-$2.50", journey_id := "J1", refundrequested := 0,
    refundable_value := 0, transaction_type_description := "Bus fare",
    transaction_type := "Fare" }

/-- A persistence-failure oracle that fires exactly on transaction `T2` —
the second record of the batch `[raw1, raw2]`. -/
def failT2 : Transaction → Bool := fun t => t.cardtransactionid == "T2"

/-- A cycle environment with a valid session and two configured cards:
card `A` fetches `[raw2]`, whose insert hits the persistence failure, and
card `B` fetches the well-formed `[raw1]`. -/
def envC1 : CycleEnv :=
  { sessionExists := true, probe := .status 200, loginOk := true,
    fetched := fun cid => if cid == "A" then some [raw2] else some [raw1],
    storeFail := failT2 }

/-- The two-card configuration used with `envC1`. -/
def cardsC1 : List (String × Option String) := [("A", none), ("B", none)]

/-! Helper lemmas about the table-key predicate. -/

theorem hasKey_append (a b : List Transaction) (cid tid : String) :
    hasKey (a ++ b) cid tid = (hasKey a cid tid || hasKey b cid tid) := by
  simp [hasKey, List.any_append]

theorem hasKey_mono {a : List Transaction} (b : List Transaction)
    {cid tid : String} (h : hasKey a cid tid = true) :
    hasKey (a ++ b) cid tid = true := by
  simp [hasKey_append, h]

theorem hasKey_snoc_self (rows : List Transaction) (t : Transaction) :
    hasKey (rows ++ [t]) t.card_id t.cardtransactionid = true := by
  simp [hasKey_append, hasKey]

theorem hasKey_prefix_of_snoc {rows : List Transaction} {t : Transaction}
    {cid tid : String} (h : hasKey (rows ++ [t]) cid tid = false) :
    hasKey rows cid tid = false := by
  rw [hasKey_append, Bool.or_eq_false_iff] at h
  exact h.1

/-- A record missing from the table contributes no row to `countKey`. -/
theorem countKey_eq_zero {rows : List Transaction} {cid tid : String}
    (h : hasKey rows cid tid = false) : countKey rows cid tid = 0 := by
  simp only [hasKey, List.any_eq_false] at h
  simp only [countKey, List.length_eq_zero, List.filter_eq_nil_iff]
  exact h

theorem countKey_append (a b : List Transaction) (cid tid : String) :
    countKey (a ++ b) cid tid = countKey a cid tid + countKey b cid tid := by
  simp [countKey, List.filter_append]

/-! The central structural lemma about the batch loop of `scrape_card`:
whatever the environment does, the loop extends the table and the
notification log by one common list `d` of freshly inserted records, each
of which came out of `process_transaction` on some element of the batch,
was absent from the initial table, and carries a primary key distinct
from every other member of `d`. -/

theorem scrape_card_go_shape (fail : Transaction → Bool) (cid : String)
    (cname : Option String) (batch : List RawTransaction) :
    ∀ rows notified count,
      ∃ d : List Transaction,
        (scrape_card_go fail cid cname rows notified count batch).notified
            = notified ++ d ∧
        (∀ rows' count',
          (scrape_card_go fail cid cname rows notified count batch).committed
              = some (rows', count') →
          rows' = rows ++ d ∧ count' = count + d.length) ∧
        (∀ t ∈ d, ∃ raw ∈ batch, process_transaction cid cname raw = some t) ∧
        (∀ t ∈ d, hasKey rows t.card_id t.cardtransactionid = false) ∧
        (d.map fun t => (t.card_id, t.cardtransactionid)).Nodup := by
  induction batch with
  | nil =>
    intro rows notified count
    refine ⟨[], by simp [scrape_card_go], ?_, by simp, by simp, by simp⟩
    intro rows' count' h
    simp only [scrape_card_go, Option.some.injEq, Prod.mk.injEq] at h
    simp [← h.1, ← h.2]
  | cons raw rest ih =>
    intro rows notified count
    simp only [scrape_card_go]
    cases hp : process_transaction cid cname raw with
    | none =>
      obtain ⟨d, h1, h2, h3, h4, h5⟩ := ih rows notified count
      exact ⟨d, h1, h2,
        fun t ht => (h3 t ht).elim fun r hr => ⟨r, List.mem_cons_of_mem _ hr.1, hr.2⟩,
        h4, h5⟩
    | some txn =>
      by_cases hf : fail txn = true
      · refine ⟨[], by simp [hf], ?_, by simp, by simp, by simp⟩
        intro rows' count' h
        simp [hf] at h
      · rw [Bool.not_eq_true] at hf
        by_cases hk : hasKey rows txn.card_id txn.cardtransactionid = true
        · obtain ⟨d, h1, h2, h3, h4, h5⟩ := ih rows notified count
          refine ⟨d, by simp [hf, hk, h1], ?_, ?_, h4, h5⟩
          · intro rows' count' h
            simp only [hf, hk, if_false, if_true, Bool.false_eq_true] at h
            exact h2 rows' count' h
          · exact fun t ht => (h3 t ht).elim fun r hr =>
              ⟨r, List.mem_cons_of_mem _ hr.1, hr.2⟩
        · rw [Bool.not_eq_true] at hk
          obtain ⟨d, h1, h2, h3, h4, h5⟩ :=
            ih (rows ++ [txn]) (notified ++ [txn]) (count + 1)
          refine ⟨txn :: d, ?_, ?_, ?_, ?_, ?_⟩
          · simp [hf, hk, h1]
          · intro rows' count' h
            simp only [hf, hk, if_false, Bool.false_eq_true] at h
            obtain ⟨hr, hc⟩ := h2 rows' count' h
            constructor
            · simp [hr]
            · simp [hc]; omega
          · intro t ht
            rcases List.mem_cons.1 ht with rfl | ht'
            · exact ⟨raw, List.mem_cons_self _ _, hp⟩
            · exact (h3 t ht').elim fun r hr =>
                ⟨r, List.mem_cons_of_mem _ hr.1, hr.2⟩
          · intro t ht
            rcases List.mem_cons.1 ht with rfl | ht'
            · exact hk
            · exact hasKey_prefix_of_snoc (h4 t ht')
          · rw [List.map_cons, List.nodup_cons]
            refine ⟨?_, h5⟩
            intro hmem
            obtain ⟨t, ht, hkey⟩ := List.mem_map.1 hmem
            obtain ⟨e1, e2⟩ := Prod.mk.injEq .. ▸ hkey
            have := h4 t ht
            rw [e1, e2, hasKey_snoc_self] at this
            exact Bool.true_eq_false ▸ this

/-- When the batch loop completes without a persistence failure, the final
table extends the initial one. -/
theorem scrape_card_go_extends (fail : Transaction → Bool) (cid : String)
    (cname : Option String) (batch : List RawTransaction)
    (rows notified : List Transaction) (count : Nat)
    {rows' : List Transaction} {count' : Nat}
    (h : (scrape_card_go fail cid cname rows notified count batch).committed
        = some (rows', count')) :
    ∃ d, rows' = rows ++ d := by
  obtain ⟨d, _, h2, _, _, _⟩ := scrape_card_go_shape fail cid cname batch rows notified count
  exact ⟨d, (h2 rows' count' h).1⟩

/-- Without persistence failures the batch loop always commits. -/
theorem scrape_card_go_commits (fail : Transaction → Bool)
    (hfail : ∀ t, fail t = false) (cid : String) (cname : Option String)
    (batch : List RawTransaction) :
    ∀ rows notified count,
      (scrape_card_go fail cid cname rows notified count batch).committed.isSome := by
  induction batch with
  | nil => intro rows notified count; simp [scrape_card_go]
  | cons raw rest ih =>
    intro rows notified count
    simp only [scrape_card_go]
    cases hp : process_transaction cid cname raw with
    | none => exact ih rows notified count
    | some txn =>
      by_cases hk : hasKey rows txn.card_id txn.cardtransactionid = true
      · simp only [hfail txn, hk, if_true, if_false, Bool.false_eq_true]
        exact ih rows notified count
      · rw [Bool.not_eq_true] at hk
        simp only [hfail txn, hk, if_false, Bool.false_eq_true]
        exact ih (rows ++ [txn]) (notified ++ [txn]) (count + 1)

/-- When the batch loop commits, the key of every record that
`process_transaction` accepts from the batch is present in the final
table. -/
theorem scrape_card_go_covers (fail : Transaction → Bool) (cid : String)
    (cname : Option String) (batch : List RawTransaction) :
    ∀ rows notified count rows' count',
      (scrape_card_go fail cid cname rows notified count batch).committed
          = some (rows', count') →
      ∀ raw ∈ batch, ∀ txn, process_transaction cid cname raw = some txn →
        hasKey rows' txn.card_id txn.cardtransactionid = true := by
  induction batch with
  | nil => intro _ _ _ _ _ _ raw hraw; exact absurd hraw (List.not_mem_nil raw)
  | cons raw₀ rest ih =>
    intro rows notified count rows' count' h raw hraw txn hptxn
    simp only [scrape_card_go] at h
    cases hp : process_transaction cid cname raw₀ with
    | none =>
      rw [hp] at h
      rcases List.mem_cons.1 hraw with rfl | hraw'
      · rw [hp] at hptxn; exact absurd hptxn (by simp)
      · exact ih rows notified count rows' count' h raw hraw' txn hptxn
    | some txn₀ =>
      rw [hp] at h
      by_cases hf : fail txn₀ = true
      · simp only [hf, if_true] at h; exact absurd h (by simp)
      · rw [Bool.not_eq_true] at hf
        by_cases hk : hasKey rows txn₀.card_id txn₀.cardtransactionid = true
        · simp only [hf, hk, if_true, if_false, Bool.false_eq_true] at h
          rcases List.mem_cons.1 hraw with rfl | hraw'
          · have : txn₀ = txn := by rw [hp] at hptxn; exact Option.some.inj hptxn
            subst this
            obtain ⟨d, rfl⟩ := scrape_card_go_extends fail cid cname rest rows notified count h
            exact hasKey_mono d hk
          · exact ih rows notified count rows' count' h raw hraw' txn hptxn
        · rw [Bool.not_eq_true] at hk
          simp only [hf, hk, if_false, Bool.false_eq_true] at h
          rcases List.mem_cons.1 hraw with rfl | hraw'
          · have : txn₀ = txn := by rw [hp] at hptxn; exact Option.some.inj hptxn
            subst this
            obtain ⟨d, rfl⟩ := scrape_card_go_extends fail cid cname rest
              (rows ++ [txn₀]) (notified ++ [txn₀]) (count + 1) h
            exact hasKey_mono d (hasKey_snoc_self rows txn₀)
          · exact ih (rows ++ [txn₀]) (notified ++ [txn₀]) (count + 1)
              rows' count' h raw hraw' txn hptxn

/-- When every record the batch can produce is already keyed in the table,
the batch loop is a no-op: nothing inserted, nothing notified, count
unchanged. -/
theorem scrape_card_go_all_dup (fail : Transaction → Bool)
    (hfail : ∀ t, fail t = false) (cid : String) (cname : Option String)
    (batch : List RawTransaction) :
    ∀ rows notified count,
      (∀ raw ∈ batch, ∀ txn, process_transaction cid cname raw = some txn →
        hasKey rows txn.card_id txn.cardtransactionid = true) →
      scrape_card_go fail cid cname rows notified count batch
        = ⟨notified, some (rows, count)⟩ := by
  induction batch with
  | nil => intro rows notified count _; simp [scrape_card_go]
  | cons raw rest ih =>
    intro rows notified count hdup
    simp only [scrape_card_go]
    cases hp : process_transaction cid cname raw with
    | none =>
      exact ih rows notified count fun r hr => hdup r (List.mem_cons_of_mem _ hr)
    | some txn =>
      have hk := hdup raw (List.mem_cons_self _ _) txn hp
      simp only [hfail txn, hk, if_true, if_false, Bool.false_eq_true]
      exact ih rows notified count fun r hr => hdup r (List.mem_cons_of_mem _ hr)

/-! Helper lemmas about the Python-dict model used by `parse_cards`. -/

theorem lookup_append_single (d : List (String × Option String)) (a : String)
    (b : Option String) (k : String) :
    lookup (d ++ [(a, b)]) k =
      match lookup d k with
      | some v => some v
      | none => if a == k then some b else none := by
  induction d with
  | nil => simp [lookup]
  | cons p d ih =>
    by_cases h : (p.1 == k) = true
    · simp [lookup, h]
    · simp only [List.cons_append, lookup, h, if_false, Bool.false_eq_true]
      exact ih

theorem lookup_eq_none_of_not_mem {d : List (String × Option String)}
    {k : String} (h : d.any (fun p => p.1 == k) = false) : lookup d k = none := by
  induction d with
  | nil => simp [lookup]
  | cons p d ih =>
    simp only [List.any_cons, Bool.or_eq_false_iff] at h
    simp only [lookup, h.1, if_false, Bool.false_eq_true]
    exact ih h.2

theorem lookup_map_update_ne {a : String} (b : Option String) {k : String}
    (hne : (a == k) = false) (d : List (String × Option String)) :
    lookup (d.map fun p => if p.1 == a then (a, b) else p) k = lookup d k := by
  induction d with
  | nil => simp [lookup]
  | cons p d ih =>
    by_cases hp : (p.1 == a) = true
    · have hp' : p.1 = a := eq_of_beq hp
      simp only [List.map_cons, hp, if_true, lookup, hne, hp' ▸ hne, if_false,
        Bool.false_eq_true]
      exact ih
    · simp only [List.map_cons, hp, if_false, lookup, Bool.false_eq_true]
      by_cases hk : (p.1 == k) = true
      · simp [hk]
      · simp only [hk, if_false, Bool.false_eq_true]
        exact ih

theorem lookup_map_update_eq {a k : String} (b : Option String)
    (heq : (a == k) = true) :
    ∀ {d : List (String × Option String)},
      d.any (fun p => p.1 == a) = true →
      lookup (d.map fun p => if p.1 == a then (a, b) else p) k = some b := by
  intro d
  induction d with
  | nil => simp
  | cons p d ih =>
    intro h
    by_cases hp : (p.1 == a) = true
    · simp [lookup, hp, heq]
    · have hpa : (p.1 == a) = false := by simpa using hp
      have hk : (p.1 == k) = false := by
        rw [← eq_of_beq heq]
        exact hpa
      simp only [List.any_cons, hpa, Bool.false_or] at h
      simp only [List.map_cons, hp, if_false, lookup, hk, Bool.false_eq_true]
      exact ih h

/-- Dict assignment rewrites lookups pointwise: the assigned key now maps
to the new value, every other key is untouched. -/
theorem lookup_dictInsert (d : List (String × Option String)) (a : String)
    (b : Option String) (k : String) :
    lookup (dictInsert d a b) k = if a == k then some b else lookup d k := by
  by_cases h : d.any (fun p => p.1 == a) = true
  · rw [dictInsert, if_pos h]
    by_cases hk : (a == k) = true
    · rw [lookup_map_update_eq b hk h, if_pos hk]
    · rw [lookup_map_update_ne b (Bool.not_eq_true _ ▸ hk) d, if_neg]
      simp [hk]
  · rw [Bool.not_eq_true] at h
    rw [dictInsert, h, if_neg (by simp), lookup_append_single]
    by_cases hk : (a == k) = true
    · have hnone : lookup d k = none := by
        apply lookup_eq_none_of_not_mem
        rw [← eq_of_beq hk]
        exact h
      rw [hnone, if_pos hk]
    · rw [Bool.not_eq_true] at hk
      rw [hk]
      cases hl : lookup d k <;> simp [hk]

/-- Dict assignment leaves the key sequence unchanged when the key exists
and appends it otherwise. -/
theorem map_fst_dictInsert (d : List (String × Option String)) (a : String)
    (b : Option String) :
    (dictInsert d a b).map Prod.fst =
      if d.any (fun p => p.1 == a) then d.map Prod.fst
      else d.map Prod.fst ++ [a] := by
  rw [dictInsert]
  split
  · rw [List.map_map]
    apply List.map_congr_left
    intro p _
    by_cases hp : (p.1 == a) = true
    · simp [eq_of_beq hp]
    · have hne : p.1 ≠ a := fun hh => hp (by simp [hh])
      simp [hne]
  · simp

/-- Dict assignment preserves distinctness of the keys. -/
theorem nodup_keys_dictInsert {d : List (String × Option String)}
    (h : (d.map Prod.fst).Nodup) (a : String) (b : Option String) :
    ((dictInsert d a b).map Prod.fst).Nodup := by
  rw [map_fst_dictInsert]
  split
  · exact h
  · rename_i hn
    rw [Bool.not_eq_true] at hn
    refine h.append (List.nodup_singleton a) ?_
    intro x hx hxa
    rw [List.mem_singleton] at hxa
    subst hxa
    obtain ⟨p, hp, hpx⟩ := List.mem_map.1 hx
    rw [List.any_eq_false] at hn
    have hna := hn p hp
    simp only [beq_iff_eq] at hna
    exact hna hpx

theorem find?_append_cases (l₁ l₂ : List (String × Option String))
    (p : String × Option String → Bool) :
    (l₁ ++ l₂).find? p =
      match l₁.find? p with
      | some x => some x
      | none => l₂.find? p := by
  induction l₁ with
  | nil => simp
  | cons a l ih =>
    by_cases h : p a = true <;>
      simp [List.find?_cons, h, ih]

/-- `lookup` after a sequence of dict assignments: a key's value is the
one carried by the last entry assigning it; keys never assigned fall
through to the initial dict. -/
theorem lookup_foldl_dictInsert (es : List (String × Option String)) :
    ∀ (d : List (String × Option String)) (k : String),
      lookup (es.foldl (fun d e => dictInsert d e.1 e.2) d) k =
        match es.reverse.find? (fun p => p.1 == k) with
        | some p => some p.2
        | none => lookup d k := by
  induction es with
  | nil => intro d k; simp
  | cons e es ih =>
    intro d k
    rw [List.foldl_cons, ih, List.reverse_cons, find?_append_cases]
    cases hf : es.reverse.find? (fun p => p.1 == k) with
    | some p => rfl
    | none =>
      rw [lookup_dictInsert]
      by_cases hk : (e.1 == k) = true
      · simp [List.find?_cons, hk]
      · rw [Bool.not_eq_true] at hk
        simp [List.find?_cons, hk]

/-- The dict built by a sequence of assignments has pairwise-distinct
keys. -/
theorem nodup_keys_foldl_dictInsert (es : List (String × Option String)) :
    ∀ d, (d.map Prod.fst).Nodup →
      ((es.foldl (fun d e => dictInsert d e.1 e.2) d).map Prod.fst).Nodup := by
  induction es with
  | nil => intro d h; exact h
  | cons e es ih =>
    intro d h
    rw [List.foldl_cons]
    exact ih _ (nodup_keys_dictInsert h e.1 e.2)

/-! Rewrite lemmas for the per-card loop of `run_once`. -/

theorem scrape_card_fetch_none (fail : Transaction → Bool) (cid : String)
    (cname : Option String) (store : List Transaction) :
    scrape_card fail cid cname store none = ⟨store, [], some 0⟩ := rfl

theorem scrape_cards_nil (env : CycleEnv) (store : List Transaction) :
    scrape_cards env store [] = ⟨store, [], [], some 0⟩ := rfl

theorem scrape_cards_cons_ok {env : CycleEnv} {cid : String}
    {cname : Option String} {store store' ntf : List Transaction} {n : Nat}
    (rest : List (String × Option String))
    (h : scrape_card env.storeFail cid cname store (env.fetched cid)
        = ⟨store', ntf, some n⟩) :
    scrape_cards env store ((cid, cname) :: rest) =
      ⟨(scrape_cards env store' rest).store,
       ntf ++ (scrape_cards env store' rest).notified,
       cid :: (scrape_cards env store' rest).processed,
       ((scrape_cards env store' rest).result).map (n + ·)⟩ := by
  simp only [scrape_cards, h]

theorem scrape_cards_cons_err {env : CycleEnv} {cid : String}
    {cname : Option String} {store store' ntf : List Transaction}
    (rest : List (String × Option String))
    (h : scrape_card env.storeFail cid cname store (env.fetched cid)
        = ⟨store', ntf, none⟩) :
    scrape_cards env store ((cid, cname) :: rest) = ⟨store', ntf, [cid], none⟩ := by
  simp only [scrape_cards, h]

/-- The cards actually scraped in a cycle form a sublist of the configured
card ids, in configuration order. -/
theorem scrape_cards_processed_sublist (env : CycleEnv) :
    ∀ (cards : List (String × Option String)) (store : List Transaction),
      (scrape_cards env store cards).processed.Sublist (cards.map Prod.fst) := by
  intro cards
  induction cards with
  | nil => intro store; simp [scrape_cards_nil]
  | cons c rest ih =>
    intro store
    obtain ⟨cid, cname⟩ := c
    rcases hsc : scrape_card env.storeFail cid cname store (env.fetched cid)
      with ⟨store', ntf, rn⟩
    cases rn with
    | some n =>
      rw [scrape_cards_cons_ok rest hsc]
      exact List.cons_sublist_cons.2 (ih store')
    | none =>
      rw [scrape_cards_cons_err rest hsc]
      exact List.cons_sublist_cons.2 (List.nil_sublist _)

/-- A `sqlite3.Error` escaping `scrape_card` leaves the committed table as
it was before the card (the context manager rolled the batch back). -/
theorem scrape_card_rollback {fail : Transaction → Bool} {cid : String}
    {cname : Option String} {store : List Transaction}
    {fetched : Option (List RawTransaction)}
    (h : (scrape_card fail cid cname store fetched).result = none) :
    (scrape_card fail cid cname store fetched).store = store := by
  cases fetched with
  | none => simp [scrape_card] at h
  | some batch =>
    simp only [scrape_card]
    rcases hg : scrape_card_go fail cid cname store [] 0 batch with ⟨ntf, cm⟩
    cases cm with
    | none => rfl
    | some rc =>
      simp only [scrape_card, hg] at h
      obtain ⟨rows, count⟩ := rc
      simp at h

/-- Whenever `process_transaction` accepts a raw record, the produced
record's description is the raw description, which is not the pending
sentinel. -/
theorem process_transaction_description {cid : String} {cname : Option String}
    {raw : RawTransaction} {t : Transaction}
    (h : process_transaction cid cname raw = some t) :
    raw.description = some t.description ∧
    t.description ≠ "TRANSACTION(S) PENDING" := by
  rw [process_transaction] at h
  by_cases hd : raw.description = some "TRANSACTION(S) PENDING"
  · rw [if_pos hd] at h
    cases h
  · rw [if_neg hd] at h
    obtain ⟨ctid, hctid, h⟩ := Option.bind_eq_some.mp h
    obtain ⟨desc, hdesc, h⟩ := Option.bind_eq_some.mp h
    obtain ⟨loc, hloc, h⟩ := Option.bind_eq_some.mp h
    obtain ⟨tdt, htdt, h⟩ := Option.bind_eq_some.mp h
    obtain ⟨hbd, hhbd, h⟩ := Option.bind_eq_some.mp h
    obtain ⟨vd, hvd, h⟩ := Option.bind_eq_some.mp h
    obtain ⟨jid, hjid, h⟩ := Option.bind_eq_some.mp h
    obtain ⟨rr, hrr, h⟩ := Option.bind_eq_some.mp h
    obtain ⟨rv, hrv, h⟩ := Option.bind_eq_some.mp h
    obtain ⟨ttd, httd, h⟩ := Option.bind_eq_some.mp h
    obtain ⟨tt, htt, h⟩ := Option.bind_eq_some.mp h
    have ht := Option.some.inj h
    constructor
    · rw [hdesc, ← ht]
    · intro hpend
      apply hd
      rw [hdesc, ← hpend, ← ht]

/-! Helper lemmas about `insert_if_absent`. -/

theorem insert_if_absent_dup {rows : List Transaction} {t : Transaction}
    (h : hasKey rows t.card_id t.cardtransactionid = true) :
    insert_if_absent rows t = (rows, false) := by
  rw [insert_if_absent, if_pos h]

theorem insert_if_absent_new {rows : List Transaction} {t : Transaction}
    (h : hasKey rows t.card_id t.cardtransactionid = false) :
    insert_if_absent rows t = (rows ++ [t], true) := by
  rw [insert_if_absent, h]
  simp

theorem hasKey_insert_self (rows : List Transaction) (t : Transaction) :
    hasKey (insert_if_absent rows t).1 t.card_id t.cardtransactionid = true := by
  by_cases h : hasKey rows t.card_id t.cardtransactionid = true
  · rw [insert_if_absent_dup h]
    exact h
  · rw [Bool.not_eq_true] at h
    rw [insert_if_absent_new h]
    exact hasKey_snoc_self rows t

/-! Rewrite lemmas for the three paths through `run_once`. -/

theorem run_once_valid_session {env : CycleEnv}
    {cards : List (String × Option String)} {store : List Transaction}
    (h : (!env.sessionExists || !test_session env.sessionExists env.probe) = false) :
    run_once env cards store =
      ⟨(scrape_cards env store cards).store,
       (scrape_cards env store cards).notified,
       (scrape_cards env store cards).processed, 0,
       if (scrape_cards env store cards).result.isSome then some true
       else none⟩ := by
  simp only [run_once, h, Bool.false_eq_true, if_false]

theorem run_once_login_ok {env : CycleEnv}
    {cards : List (String × Option String)} {store : List Transaction}
    (h : (!env.sessionExists || !test_session env.sessionExists env.probe) = true)
    (hl : env.loginOk = true) :
    run_once env cards store =
      ⟨(scrape_cards env store cards).store,
       (scrape_cards env store cards).notified,
       (scrape_cards env store cards).processed, 1,
       if (scrape_cards env store cards).result.isSome then some true
       else none⟩ := by
  simp only [run_once, h, hl, if_true]

theorem run_once_login_fail {env : CycleEnv}
    {cards : List (String × Option String)} {store : List Transaction}
    (h : (!env.sessionExists || !test_session env.sessionExists env.probe) = true)
    (hl : env.loginOk = false) :
    run_once env cards store = ⟨store, [], [], 1, some false⟩ := by
  simp only [run_once, h, hl, if_true, Bool.false_eq_true, if_false]

/-! The claims. -/

/-- C7: when a session exists and the validity probe succeeds, `login()`
is not invoked during the cycle; `login` is invoked (never more than once
per cycle) only when no session exists or the probe fails; and a login
failure ends the cycle as a failure with no card scraped. -/
theorem c7_session_reuse (env : CycleEnv)
    (cards : List (String × Option String)) (store : List Transaction) :
    (env.sessionExists = true → test_session env.sessionExists env.probe = true →
      (run_once env cards store).loginCalls = 0) ∧
    (run_once env cards store).loginCalls ≤ 1 ∧
    ((run_once env cards store).loginCalls = 1 →
      env.sessionExists = false ∨
        test_session env.sessionExists env.probe = false) ∧
    ((env.sessionExists = false ∨
        test_session env.sessionExists env.probe = false) →
      env.loginOk = false →
      run_once env cards store = ⟨store, [], [], 1, some false⟩) := by
  by_cases hc : (!env.sessionExists || !test_session env.sessionExists env.probe)
      = true
  · have hc' : env.sessionExists = false ∨
        test_session env.sessionExists env.probe = false := by
      simpa using hc
    refine ⟨?_, ?_, fun _ => hc', fun _ => run_once_login_fail hc⟩
    · intro hse ht
      rcases hc' with h | h
      · rw [hse] at h; cases h
      · rw [ht] at h; cases h
    · by_cases hl : env.loginOk = true
      · rw [run_once_login_ok hc hl]
      · rw [run_once_login_fail hc ((Bool.not_eq_true env.loginOk) ▸ hl)]
  · rw [Bool.not_eq_true] at hc
    have hc' : env.sessionExists = true ∧
        test_session env.sessionExists env.probe = true := by
      simpa using hc
    rw [run_once_valid_session hc]
    refine ⟨fun _ _ => rfl, Nat.zero_le 1, ?_, ?_⟩
    · intro h
      simp at h
    · intro hor
      rcases hor with h | h
      · rw [hc'.1] at h; cases h
      · rw [hc'.2] at h; cases h

/-- Witness for C7 at concrete inputs: with `envC1` (existing session,
200-probe) no login happens, and with a sessionless environment whose
login fails the cycle returns `False` untouched. -/
theorem c7_session_reuse_witness :
    (run_once envC1 cardsC1 []).loginCalls = 0 ∧
    run_once
        ⟨false, .failure, false, fun _ => none, noFail⟩ cardsC1 []
      = ⟨[], [], [], 1, some false⟩ :=
  ⟨(c7_session_reuse envC1 cardsC1 []).1 rfl rfl,
   (c7_session_reuse ⟨false, .failure, false, fun _ => none, noFail⟩
      cardsC1 []).2.2.2 (Or.inl rfl) rfl⟩

/-- C9: every enumerated fetch failure — absent session, HTTP error,
decode error, request error — produces no batch; a card whose fetch
produced no batch contributes 0 new records without raising, and the rest
of the cycle proceeds exactly as if that card had contributed nothing:
every later configured card is still processed. -/
theorem c9_fetch_failure_isolated (env : CycleEnv) (cid : String)
    (cname : Option String) (rest : List (String × Option String))
    (store : List Transaction) :
    (∀ b, fetch_transactions false b = none) ∧
    fetch_transactions true .httpError = none ∧
    fetch_transactions true .decodeError = none ∧
    fetch_transactions true .requestError = none ∧
    (env.fetched cid = none →
      scrape_card env.storeFail cid cname store (env.fetched cid)
          = ⟨store, [], some 0⟩ ∧
      scrape_cards env store ((cid, cname) :: rest) =
        ⟨(scrape_cards env store rest).store,
         (scrape_cards env store rest).notified,
         cid :: (scrape_cards env store rest).processed,
         (scrape_cards env store rest).result⟩) := by
  refine ⟨fun b => rfl, rfl, rfl, rfl, ?_⟩
  intro hf
  have hsc : scrape_card env.storeFail cid cname store (env.fetched cid)
      = ⟨store, [], some 0⟩ := by rw [hf]; rfl
  refine ⟨hsc, ?_⟩
  rw [scrape_cards_cons_ok rest hsc]
  rcases hr : scrape_cards env store rest with ⟨st, ntf, prc, res⟩
  cases res <;> simp

/-- Witness for C9 at concrete inputs: in a sessionless environment the
fetch of card `A` yields no batch, and scraping `A` leaves the store
untouched and returns 0. -/
theorem c9_fetch_failure_isolated_witness :
    scrape_card noFail "A" none [txn1] none = ⟨[txn1], [], some 0⟩ :=
  ((c9_fetch_failure_isolated ⟨false, .failure, false, fun _ => none, noFail⟩
      "A" none [] [txn1]).2.2.2.2 rfl).1

/-- C4: a raw transaction whose description equals the pending sentinel is
normalized to `none`, and for every card, batch and environment no
notified record and no newly stored record carries the sentinel
description — pending rows are never persisted and never notified. -/
theorem c4_pending_never_stored_or_notified (cid : String)
    (cname : Option String) (raw : RawTransaction) (fail : Transaction → Bool)
    (store : List Transaction) (batch : List RawTransaction) :
    (raw.description = some "TRANSACTION(S) PENDING" →
      process_transaction cid cname raw = none) ∧
    (∀ t ∈ (scrape_card fail cid cname store (some batch)).notified,
      t.description ≠ "TRANSACTION(S) PENDING") ∧
    (∀ t ∈ (scrape_card fail cid cname store (some batch)).store,
      t ∈ store ∨ t.description ≠ "TRANSACTION(S) PENDING") := by
  refine ⟨?_, ?_, ?_⟩
  · intro hd
    rw [process_transaction, if_pos hd]
  · intro t ht
    simp only [scrape_card] at ht
    rcases hg : scrape_card_go fail cid cname store [] 0 batch with ⟨ntf, cm⟩
    rw [hg] at ht
    obtain ⟨d, h1, h2, h3, h4, h5⟩ :=
      scrape_card_go_shape fail cid cname batch store [] 0
    rw [hg] at h1
    simp only [List.nil_append] at h1
    have htd : t ∈ d := by
      cases cm with
      | none => rw [← h1]; exact ht
      | some rc => obtain ⟨rows, count⟩ := rc; rw [← h1]; exact ht
    obtain ⟨r, hr, hpr⟩ := h3 t htd
    exact (process_transaction_description hpr).2
  · intro t ht
    simp only [scrape_card] at ht
    rcases hg : scrape_card_go fail cid cname store [] 0 batch with ⟨ntf, cm⟩
    rw [hg] at ht
    obtain ⟨d, h1, h2, h3, h4, h5⟩ :=
      scrape_card_go_shape fail cid cname batch store [] 0
    cases cm with
    | none => exact Or.inl ht
    | some rc =>
      obtain ⟨rows, count⟩ := rc
      obtain ⟨hrows, -⟩ := h2 rows count (by rw [hg])
      rw [hrows] at ht
      rcases List.mem_append.mp ht with hmem | hmem
      · exact Or.inl hmem
      · obtain ⟨r, hr, hpr⟩ := h3 t hmem
        exact Or.inr (process_transaction_description hpr).2

/-- Witness for C4 at concrete inputs: the pending record normalizes to
`none`, and the one record notified from the batch `[raw1]` does not carry
the sentinel. -/
theorem c4_pending_never_stored_or_notified_witness :
    process_transaction "C1" none pendingRaw = none ∧
    txn1.description ≠ "TRANSACTION(S) PENDING" :=
  ⟨(c4_pending_never_stored_or_notified "C1" none pendingRaw noFail [] []).1 rfl,
   (c4_pending_never_stored_or_notified "C1" none pendingRaw noFail []
      [raw1]).2.1 txn1 (List.mem_singleton_self txn1)⟩

/-- C5: inserting an already-keyed record reports a benign duplicate and
leaves the table unchanged; starting from a table without the key, two
insertions of the same record leave exactly one row with that key (the
first reported new, the second duplicate); and re-processing an identical
fetched batch for a card yields zero new rows, zero notifications and an
unchanged table. -/
theorem c5_duplicate_insert_idempotent (rows : List Transaction)
    (t : Transaction) (cid : String) (cname : Option String)
    (store : List Transaction) (batch : List RawTransaction) :
    insert_if_absent (insert_if_absent rows t).1 t
        = ((insert_if_absent rows t).1, false) ∧
    (hasKey rows t.card_id t.cardtransactionid = false →
      (insert_if_absent rows t).2 = true ∧
      countKey (insert_if_absent (insert_if_absent rows t).1 t).1
        t.card_id t.cardtransactionid = 1) ∧
    scrape_card noFail cid cname
        (scrape_card noFail cid cname store (some batch)).store (some batch)
      = ⟨(scrape_card noFail cid cname store (some batch)).store, [],
         some 0⟩ := by
  refine ⟨insert_if_absent_dup (hasKey_insert_self rows t), ?_, ?_⟩
  · intro hk
    constructor
    · rw [insert_if_absent_new hk]
    · rw [insert_if_absent_new hk]
      rw [insert_if_absent_dup
        (show hasKey ((rows ++ [t], true) : List Transaction × Bool).1
            t.card_id t.cardtransactionid = true
          from hasKey_snoc_self rows t)]
      rw [countKey_append, countKey_eq_zero hk]
      simp [countKey]
  · have hcommit := scrape_card_go_commits noFail (fun _ => rfl) cid cname
      batch store [] 0
    rcases hg : scrape_card_go noFail cid cname store [] 0 batch with ⟨ntf, cm⟩
    rw [hg] at hcommit
    cases cm with
    | none => simp at hcommit
    | some rc =>
      obtain ⟨rows', count⟩ := rc
      have hout : scrape_card noFail cid cname store (some batch)
          = ⟨rows', ntf, some count⟩ := by
        simp only [scrape_card, hg]
      have hcov := scrape_card_go_covers noFail cid cname batch store [] 0
        rows' count (by rw [hg])
      have hdup := scrape_card_go_all_dup noFail (fun _ => rfl) cid cname
        batch rows' [] 0 hcov
      rw [hout]
      simp only [scrape_card, hdup]

/-- Witness for C5 at concrete inputs: inserting `txn1` into the empty
table reports it new, and re-inserting it leaves exactly one row with its
key. -/
theorem c5_duplicate_insert_idempotent_witness :
    (insert_if_absent [] txn1).2 = true ∧
    countKey (insert_if_absent (insert_if_absent [] txn1).1 txn1).1
      txn1.card_id txn1.cardtransactionid = 1 :=
  (c5_duplicate_insert_idempotent [] txn1 "C1" none [] [raw1]).2.1 rfl

/-- C6 as stated is false: with the batch `[raw1, raw2]` on an empty store,
where the insert of the second record hits a persistence failure, the
first record is notified during the batch, yet the rollback leaves the
store empty — notifications do not go to exactly the records that end up
persisted. -/
theorem c6_notification_counterexample :
    (scrape_card failT2 "C1" none [] (some [raw1, raw2])).notified = [txn1] ∧
    (scrape_card failT2 "C1" none [] (some [raw1, raw2])).store = [] ∧
    txn1 ∉ (scrape_card failT2 "C1" none [] (some [raw1, raw2])).store := by
  refine ⟨rfl, rfl, ?_⟩
  intro h
  exact List.not_mem_nil txn1 h

/-- C6 amended: during one card's batch, `notify` fires exactly once per
record newly inserted in that batch — never for duplicates or discarded
records — and when the batch commits, the notified records are exactly the
records appended to the store (the new count equals the number of
notifications); when a store error aborts the batch instead, records
inserted before the failure have already been notified even though the
rollback leaves them unpersisted. -/
theorem c6_notification_gating (fail : Transaction → Bool) (cid : String)
    (cname : Option String) (store : List Transaction)
    (batch : List RawTransaction) (n : Nat)
    (h : (scrape_card fail cid cname store (some batch)).result = some n) :
    (scrape_card fail cid cname store (some batch)).store
        = store ++ (scrape_card fail cid cname store (some batch)).notified ∧
    n = (scrape_card fail cid cname store (some batch)).notified.length ∧
    ((scrape_card fail cid cname store (some batch)).notified.map
        fun t => (t.card_id, t.cardtransactionid)).Nodup ∧
    (∀ t ∈ (scrape_card fail cid cname store (some batch)).notified,
      hasKey store t.card_id t.cardtransactionid = false) ∧
    (∀ t ∈ (scrape_card fail cid cname store (some batch)).notified,
      ∃ raw ∈ batch, process_transaction cid cname raw = some t) := by
  rcases hg : scrape_card_go fail cid cname store [] 0 batch with ⟨ntf, cm⟩
  obtain ⟨d, h1, h2, h3, h4, h5⟩ :=
    scrape_card_go_shape fail cid cname batch store [] 0
  rw [hg] at h1
  simp only [List.nil_append] at h1
  cases cm with
  | none =>
    have hres : (scrape_card fail cid cname store (some batch)).result
        = none := by
      simp only [scrape_card, hg]
    rw [hres] at h
    cases h
  | some rc =>
    obtain ⟨rows, count⟩ := rc
    have hout : scrape_card fail cid cname store (some batch)
        = ⟨rows, ntf, some count⟩ := by
      simp only [scrape_card, hg]
    obtain ⟨hrows, hcount⟩ := h2 rows count (by rw [hg])
    rw [hout] at h
    have hn : count = n := Option.some.inj h
    subst h1
    rw [hout]
    refine ⟨?_, ?_, h5, h4, h3⟩
    · exact hrows
    · rw [← hn, hcount]
      simp

/-- Witness for C6 at concrete inputs: the committed batch `[raw1]` on the
empty store persists exactly the records it notified. -/
theorem c6_notification_gating_witness :
    (scrape_card noFail "C1" none [] (some [raw1])).store
      = [] ++ (scrape_card noFail "C1" none [] (some [raw1])).notified :=
  (c6_notification_gating noFail "C1" none [] [raw1] 1 rfl).1

/-- C1 as stated is false: in `envC1` the persistence failure on card `A`
propagates out of `scrape_card` and aborts the whole cycle — card `B`,
although configured in the same cycle, is never processed. -/
theorem c1_store_error_counterexample :
    (scrape_cards envC1 [] cardsC1).processed = ["A"] ∧
    "B" ∉ (scrape_cards envC1 [] cardsC1).processed ∧
    (scrape_cards envC1 [] cardsC1).result = none := by
  refine ⟨rfl, ?_, rfl⟩
  intro h
  rw [show (scrape_cards envC1 [] cardsC1).processed = ["A"] from rfl] at h
  simp at h

/-- C1 amended: a persistence failure other than a duplicate key while
storing one card's batch rolls that card's transaction back and
propagates, aborting the rest of the cycle — the cards after the failing
one are not processed in that cycle — and the exception is caught by the
run loop's `except Exception` handler, counted as a failure with a flat
60-second sleep, so the process does not crash. -/
theorem c1_store_error_aborts_cycle (env : CycleEnv) (cid : String)
    (cname : Option String) (rest : List (String × Option String))
    (store : List Transaction) (period f : Nat)
    (h : (scrape_card env.storeFail cid cname store (env.fetched cid)).result
        = none) :
    (scrape_card env.storeFail cid cname store (env.fetched cid)).store
        = store ∧
    (scrape_cards env store ((cid, cname) :: rest)).processed = [cid] ∧
    (scrape_cards env store ((cid, cname) :: rest)).result = none ∧
    (test_session env.sessionExists env.probe = true ∨ env.loginOk = true →
      (run_once env ((cid, cname) :: rest) store).result = none) ∧
    (∀ r : RunOnceOutcome, r.result = none →
      run_step period f (outcomeOf r) = ⟨f + 1, some 60, true⟩) := by
  have hro := scrape_card_rollback h
  have hsc : scrape_card env.storeFail cid cname store (env.fetched cid)
      = ⟨store, (scrape_card env.storeFail cid cname store
          (env.fetched cid)).notified, none⟩ := by
    rcases hx : scrape_card env.storeFail cid cname store (env.fetched cid)
      with ⟨st, ntf, res⟩
    rw [hx] at h hro
    simp only at h hro
    rw [h, hro]
  have herr := scrape_cards_cons_err rest hsc
  refine ⟨hro, ?_, ?_, ?_, ?_⟩
  · rw [herr]
  · rw [herr]
  · intro hvalid
    by_cases hcond : (!env.sessionExists ||
        !test_session env.sessionExists env.probe) = true
    · rcases hvalid with ht | hl
      · exfalso
        have hse : env.sessionExists = true := by
          cases hb : env.sessionExists
          · rw [hb] at ht
            simp [test_session] at ht
          · rfl
        rw [hse] at ht
        rw [hse, ht] at hcond
        simp at hcond
      · rw [run_once_login_ok hcond hl, herr]
        simp
    · rw [Bool.not_eq_true] at hcond
      rw [run_once_valid_session hcond, herr]
      simp
  · intro r hr
    simp [outcomeOf, hr, run_step]

/-- Witness for C1 at concrete inputs: `envC1`'s failure on card `A`
leaves only card `A` processed in the cycle. -/
theorem c1_store_error_aborts_cycle_witness :
    (scrape_cards envC1 [] (("A", none) :: [("B", none)])).processed
      = ["A"] :=
  (c1_store_error_aborts_cycle envC1 "A" none [("B", none)] [] 3600 0
    rfl).2.1

/-- C10: the parsed card dict has pairwise-distinct card ids; the value
associated with a card id is the display name of the last comma-separated
entry that parses to that id; and consequently each card id is scraped at
most once per cycle, no matter how many entries list it. -/
theorem c10_duplicate_cards_collapsed (s : String) (k : String)
    (env : CycleEnv) (store : List Transaction) :
    ((parse_cards s).map Prod.fst).Nodup ∧
    lookup (parse_cards s) k =
      (((s.splitOn ",").map parseEntry).reverse.find?
        (fun p => p.1 == k)).map Prod.snd ∧
    (scrape_cards env store (parse_cards s)).processed.count k ≤ 1 := by
  have hb : parse_cards s =
      ((s.splitOn ",").map parseEntry).foldl
        (fun d e => dictInsert d e.1 e.2) [] := by
    rw [parse_cards, List.foldl_map]
  have hnd : ((parse_cards s).map Prod.fst).Nodup := by
    rw [hb]
    exact nodup_keys_foldl_dictInsert _ [] (by simp)
  refine ⟨hnd, ?_, ?_⟩
  · rw [hb, lookup_foldl_dictInsert]
    cases hf : ((s.splitOn ",").map parseEntry).reverse.find?
        (fun p => p.1 == k) <;>
      simp [lookup]
  · have hsub := scrape_cards_processed_sublist env (parse_cards s) store
    exact List.nodup_iff_count_le_one.mp (List.Nodup.sublist hsub hnd) k

/-- C2: after the f-th consecutive failed cycle the run loop sleeps
`min(60 * 2^(f-1), 1800)` seconds — 60, 120, 240, 480, 960 for f = 1..5
and 1800 for every f where the formula exceeds the cap — and a successful
cycle resets the consecutive-failure counter to 0 and sleeps the
configured period. -/
theorem c2_backoff_schedule (period f : Nat) :
    run_step period f .failure
        = ⟨f + 1, some (min (60 * 2 ^ f) 1800), true⟩ ∧
    (backoff 1 = 60 ∧ backoff 2 = 120 ∧ backoff 3 = 240 ∧ backoff 4 = 480 ∧
      backoff 5 = 960) ∧
    (∀ g, 1800 < 60 * 2 ^ (g - 1) → backoff g = 1800) ∧
    run_step period f .success = ⟨0, some period, true⟩ := by
  refine ⟨?_, by decide, ?_, rfl⟩
  · simp [run_step, backoff]
  · intro g hg
    exact Nat.min_eq_right (Nat.le_of_lt hg)

/-- Witness for C2 at concrete inputs: the sixth failure exceeds the cap
(60 · 2⁵ = 1920 > 1800) and sleeps exactly 1800 seconds. -/
theorem c2_backoff_schedule_witness :
    run_step 3600 5 CycleOutcome.failure
        = ⟨6, some (min (60 * 2 ^ 5) 1800), true⟩ ∧ backoff 6 = 1800 :=
  ⟨(c2_backoff_schedule 3600 5).1,
   (c2_backoff_schedule 3600 5).2.2.1 6 (by decide)⟩

/-- C3 as stated is false: at the second consecutive failure, caused by an
exception, the run loop sleeps exactly the flat 60 seconds — not 60
seconds in addition to the 120-second backoff-formula sleep for that
failure. -/
theorem c3_exception_sleep_counterexample :
    (run_step 3600 1 CycleOutcome.exn).sleep = some 60 ∧
    (run_step 3600 1 CycleOutcome.exn).sleep ≠ some (60 + backoff 2) := by
  decide

/-- C3 amended: every exception raised inside a cycle is caught at the top
of the run loop, increments the consecutive-failure counter, and causes a
flat 60-second sleep in place of (not in addition to) the backoff-formula
sleep for that failure; the loop continues, and it terminates only on the
explicit shutdown signal (`KeyboardInterrupt`). -/
theorem c3_exception_caught_flat_sleep (period f : Nat) :
    run_step period f .exn = ⟨f + 1, some 60, true⟩ ∧
    (∀ o, (run_step period f o).running = false ↔ o = .shutdown) := by
  refine ⟨rfl, ?_⟩
  intro o
  cases o <;> simp [run_step]

/-- C8: the session validity check is total — it returns `true` exactly
when a session exists and the probe yields HTTP 200; a missing session,
any non-200 status and any raised exception all yield `false` (the model
is a total function into `Bool`, so nothing escapes). -/
theorem c8_test_session_total (se : Bool) (probe : ProbeOutcome) :
    (test_session se probe = true ↔ se = true ∧ probe = .status 200) ∧
    (se = false → test_session se probe = false) ∧
    (∀ code, code ≠ 200 → test_session se (.status code) = false) ∧
    test_session se .failure = false := by
  refine ⟨?_, ?_, ?_, ?_⟩
  · cases se <;> cases probe <;> simp [test_session]
  · intro hse
    subst hse
    simp [test_session]
  · intro code hcode
    cases se <;> simp [test_session, hcode]
  · cases se <;> simp [test_session]

/-- Witness for C8 at concrete inputs: a 404 probe response yields
`false`, and an existing session with a 200 probe yields `true`. -/
theorem c8_test_session_total_witness :
    test_session true (.status 404) = false ∧
    test_session true (.status 200) = true :=
  ⟨(c8_test_session_total true (.status 404)).2.2.1 404 (by decide),
   (c8_test_session_total true (.status 200)).1.mpr ⟨rfl, rfl⟩⟩

end ATHop
